import Mathlib

/-!
Verification of the VictoriaLogs ingestion/classification pipeline and
cluster test harness, shallowly embedded from the repository sources:
the OpenTelemetry protobuf insert path (`RequestHandler`, `handleProtobuf`,
`pushProtobufRequest`), the cluster startup helpers (`MustStartVlcluster`,
`setDefaultFlags`), the query-response parser (`NewLogsQLQueryResponse`)
and the facets/stats behaviour exercised by `TestVlclusterIngestAndQuery`.
-/

/-! ## Canonical row model -/

/-- A log field: an ordered (name, value) pair, as in `logstorage.Field`. -/
structure LogField where
  name : String
  value : String
deriving DecidableEq

/-- One decoded OTLP log record as handed to the `pushLogs` callback of
`pushProtobufRequest`: a timestamp, the flattened field list, and the number
of leading fields that are stream fields. -/
structure DecodedRow where
  timestamp : Int
  fields : List LogField
  streamFieldsLen : Nat
deriving DecidableEq

/-- One call to `lmp.AddRow(timestamp, fields, streamFields)`: `streamFields`
is `none` when the Go code passes a nil slice. -/
structure AddRowCall where
  timestamp : Int
  fields : List LogField
  streamFields : Option (List LogField)
deriving DecidableEq

/-- Modelled from the spec: `logstorage.RenameField` (not under src/) renames
the field(s) whose name matches one of `names` to the reserved name `_msg`;
if no field matches, `_msg` is set to an empty message rather than omitted. -/
def renameField (fields : List LogField) (names : List String) : List LogField :=
  if fields.any (fun f => names.contains f.name) then
    fields.map (fun f => if names.contains f.name then { f with name := "_msg" } else f)
  else
    fields ++ [⟨"_msg", ""⟩]

/-- The `pushLogs` closure inside `pushProtobufRequest`: rename message fields
in the non-stream suffix `fields[streamFieldsLen:]`, then pass the leading
`streamFieldsLen` fields as stream fields iff `useDefaultStreamFields`. -/
def pushLogs (msgFields : List String) (useDefaultStreamFields : Bool)
    (row : DecodedRow) : AddRowCall :=
  let fields := row.fields.take row.streamFieldsLen ++
    renameField (row.fields.drop row.streamFieldsLen) msgFields
  let streamFields :=
    if useDefaultStreamFields then some (row.fields.take row.streamFieldsLen) else none
  { timestamp := row.timestamp, fields := fields, streamFields := streamFields }

/-- `useDefaultStreamFields := len(cp.StreamFields) == 0` computed in
`handleProtobuf` from the caller-supplied `_stream_fields` parameter. -/
def useDefaultStreamFieldsOf (cpStreamFields : List String) : Bool :=
  cpStreamFields.length == 0

/-- An OTLP protobuf payload, abstracted to the record level: each entry is
either a well-formed log record or `none` for a corrupt record. -/
abbrev LogsPayload : Type := List (Option DecodedRow)

/-- Modelled from the spec: `decodeLogsData` (not under src/) decodes a
`LogsData` envelope; decoding failures abort the whole request (no record is
emitted when any record of the payload is corrupt). -/
def decodeLogsData (payload : LogsPayload) : Except String (List DecodedRow) :=
  match payload with
  | [] => Except.ok []
  | none :: _ => Except.error "corrupt log record"
  | some row :: rest =>
    match decodeLogsData rest with
    | Except.error e => Except.error e
    | Except.ok rows => Except.ok (row :: rows)

/-- `pushProtobufRequest`: decode the payload and emit one `AddRow` call per
decoded record; a decode failure is wrapped into a request-level error. -/
def pushProtobufRequest (payload : LogsPayload) (msgFields : List String)
    (useDefaultStreamFields : Bool) : Except String (List AddRowCall) :=
  match decodeLogsData payload with
  | Except.error e => Except.error ("cannot decode LogsData request: " ++ e)
  | Except.ok rows => Except.ok (rows.map (pushLogs msgFields useDefaultStreamFields))

/-- The rows durably handed to storage by a request: none when it errored. -/
def storedRows : Except String (List AddRowCall) → List AddRowCall
  | Except.error _ => []
  | Except.ok rows => rows

/-! ## The OTLP request handler -/

/-- The common insert params parsed from the request by
`insertutil.GetCommonParams`: the `_stream_fields` and `_msg_field`
configuration supplied by the caller. -/
structure CommonParams where
  streamFields : List String
  msgFields : List String
deriving DecidableEq

/-- Observable steps of `handleProtobuf`, in execution order: the single
`insertutil.CanWriteData` backpressure check, the single body decode
(`protoparserutil.ReadUncompressedData` + `decodeLogsData`), and each
`lmp.AddRow` call. -/
inductive IngestEvent where
  | checkBackpressure : IngestEvent
  | decodePayload : IngestEvent
  | addRow (call : AddRowCall) : IngestEvent
deriving DecidableEq

/-- `handleProtobuf`: parse common params, check `CanWriteData` once, then
read and decode the body and push the rows. Returns the trace of observable
steps together with the error reported via `httpserver.Errorf`, if any. -/
def handleProtobuf (cp : Except String CommonParams) (canWrite : Except String Unit)
    (payload : LogsPayload) : List IngestEvent × Option String :=
  match cp with
  | Except.error e => ([], some ("cannot parse common params from request: " ++ e))
  | Except.ok cp =>
    match canWrite with
    | Except.error e => ([IngestEvent.checkBackpressure], some e)
    | Except.ok _ =>
      match pushProtobufRequest payload cp.msgFields (useDefaultStreamFieldsOf cp.streamFields) with
      | Except.error e =>
        ([IngestEvent.checkBackpressure, IngestEvent.decodePayload],
          some ("cannot read OpenTelemetry protocol data: " ++ e))
      | Except.ok rows =>
        (IngestEvent.checkBackpressure :: IngestEvent.decodePayload ::
          rows.map IngestEvent.addRow, none)

/-- Outcome of `RequestHandler` for a path/request: `notFound` models the
`return false` branch, `rejected` an `httpserver.Errorf` before decoding. -/
inductive HandlerResult where
  | notFound : HandlerResult
  | rejected (msg : String) : HandlerResult
  | handled (events : List IngestEvent) (err : Option String) : HandlerResult
deriving DecidableEq

/-- Modelled from the spec: `insertutil.IsJSONContentType` (not under src/)
recognises a JSON content type, i.e. a media type of `application/json`. -/
def isJSONContentType (contentType : String) : Bool :=
  List.isPrefixOf "application/json".data contentType.data

/-- `RequestHandler` for the `/insert/opentelemetry/v1/logs` path: rejects
JSON content types with the "use protobuf encoding" error, otherwise runs
`handleProtobuf`; any other path is not handled. -/
def RequestHandler (path contentType : String) (cp : Except String CommonParams)
    (canWrite : Except String Unit) (payload : LogsPayload) : HandlerResult :=
  if path = "/insert/opentelemetry/v1/logs" then
    if isJSONContentType contentType then
      HandlerResult.rejected
        "json encoding isn't supported for opentelemetry format. Use protobuf encoding"
    else
      let r := handleProtobuf cp canWrite payload
      HandlerResult.handled r.1 r.2
  else
    HandlerResult.notFound

/-- The rows a handler outcome forwarded to storage. -/
def ingestedRows : HandlerResult → List AddRowCall
  | HandlerResult.handled events _ =>
    events.filterMap (fun e =>
      match e with
      | IngestEvent.addRow c => some c
      | _ => none)
  | _ => []

/-! ## A kernel-computable lexicographic order on strings -/

/-! ## A kernel-computable lexicographic order on strings -/

/-- Strict lexicographic order on char lists, comparing code points. -/
def strLtB : List Char → List Char → Bool
  | [], [] => false
  | [], _ :: _ => true
  | _ :: _, [] => false
  | a :: as, b :: bs =>
    if a.toNat < b.toNat then true
    else if b.toNat < a.toNat then false
    else strLtB as bs

/-- Lexicographic less-or-equal on strings. -/
def strLeB (a b : String) : Bool := !(strLtB b.data a.data)

/-! ## The facets / stats query engine (modelled from the spec) -/

/-! ## The facets / stats query engine (modelled from the spec) -/

/-- Field names sorted ascending, as a propositional relation. -/
def nameOrder (a b : String) : Prop := strLeB a b = true

instance nameOrderDecidable : DecidableRel nameOrder := fun a b => by
  unfold nameOrder
  infer_instance

/-- Facet value entries ordered by descending hits, ties broken by ascending
value (non-strict form used by the sort). -/
def hitsOrder (a b : String × Nat) : Prop :=
  b.2 < a.2 ∨ (a.2 = b.2 ∧ strLeB a.1 b.1 = true)

instance hitsOrderDecidable : DecidableRel hitsOrder := fun a b => by
  unfold hitsOrder
  infer_instance

/-- Descending hits with a strict lexicographic tie-break on the value: the
order the spec requires of the entries of one facet field. -/
def facetValueOrder (a b : String × Nat) : Prop :=
  b.2 < a.2 ∨ (a.2 = b.2 ∧ strLtB a.1.data b.1.data = true)

/-- Modelled from the spec: the facets engine (not under src/) collects the
value of field `fname` from every row that carries it. -/
def fieldValuesOf (fname : String) (rows : List (List LogField)) : List String :=
  rows.filterMap (fun row => (row.find? (fun f => f.name == fname)).map (fun f => f.value))

/-- Modelled from the spec: the per-field facet histogram — distinct values
with their hit counts, sorted by descending hits then ascending value. -/
def facetsForField (fname : String) (rows : List (List LogField)) : List (String × Nat) :=
  let vals := fieldValuesOf fname rows
  List.insertionSort hitsOrder (vals.dedup.map (fun v => (v, vals.count v)))

/-- The distinct field names occurring in the rows. -/
def fieldNamesOf (rows : List (List LogField)) : List String :=
  ((rows.map (fun row => row.map (fun f => f.name))).flatten).dedup

/-- Modelled from the spec: the `/select/logsql/facets` response — one entry
per field name in ascending name order, each carrying its value histogram. -/
def facetsResponse (rows : List (List LogField)) : List (String × List (String × Nat)) :=
  (List.insertionSort nameOrder (fieldNamesOf rows)).map
    (fun n => (n, facetsForField n rows))

/-- Modelled from the spec: the stream identity of a row under the configured
stream fields — its (name, value) pairs whose name is a stream field. -/
def streamOf (streamFields : List String) (row : List LogField) : List LogField :=
  row.filter (fun f => streamFields.contains f.name)

/-- Modelled from the spec: `count_uniq(_stream)` — the number of distinct
stream identities among the rows. -/
def countUniqStreams (streamFields : List String) (rows : List (List LogField)) : Nat :=
  ((rows.map (streamOf streamFields)).dedup).length

/-- The five records ingested by `TestVlclusterIngestAndQuery`. -/
def testRecords : List (List LogField) :=
  [[⟨"_msg", "abc"⟩, ⟨"x", "y"⟩, ⟨"_time", "2025-01-01T01:00:00Z"⟩],
   [⟨"_msg", "def"⟩, ⟨"x", "y"⟩, ⟨"_time", "2025-01-01T01:00:00Z"⟩],
   [⟨"_msg", "gh"⟩, ⟨"x", "y"⟩, ⟨"_time", "2025-01-01T01:00:00Z"⟩],
   [⟨"_msg", "aa"⟩, ⟨"x", "z"⟩, ⟨"_time", "2025-01-01T01:00:00Z"⟩],
   [⟨"_msg", "aa"⟩, ⟨"x", "y"⟩, ⟨"_time", "2025-01-01T01:00:00Z"⟩]]

/-! ## Cluster startup (`MustStartVlcluster`, `setDefaultFlags`) -/

/-- The topology `MustStartVlcluster` constructs: the storage node addresses
and the flag lists handed to the insert and select nodes. -/
structure VlclusterConfig where
  storageAddrs : List String
  insertFlags : List String
  selectFlags : List String
deriving DecidableEq

/-- `MustStartVlcluster`: start three storage nodes (collecting each node's
reported HTTP listen address via `addrOf`), then an insert node with
`-select.disable=true` and a select node with `-insert.disable=true`, both
pointed at the comma-joined list of all storage addresses. -/
def MustStartVlcluster (addrOf : Nat → String) : VlclusterConfig :=
  let storageNodeAddrs := [addrOf 0, addrOf 1, addrOf 2]
  let storageNodeFlag := "-storageNode=" ++ String.intercalate "," storageNodeAddrs
  { storageAddrs := storageNodeAddrs
    insertFlags := [storageNodeFlag, "-select.disable=true"]
    selectFlags := [storageNodeFlag, "-insert.disable=true"] }

/-- The flag name of a flag entry: the part before the first `=`
(Go `f[:strings.IndexByte(f, '=')]`). -/
def flagName (f : String) : String :=
  String.mk (f.data.takeWhile (fun c => !(c == '=')))

/-- `strings.HasPrefix(f, "-")`. -/
def flagHasDash (f : String) : Bool :=
  match f.data with
  | [] => false
  | c :: _ => c == '-'

/-- `strings.IndexByte(f, '=') >= 0`. -/
def flagHasEq (f : String) : Bool := f.data.contains '='

/-- A flag entry `setDefaultFlags` accepts without panicking. -/
def flagIsValid (f : String) : Bool := flagHasDash f && flagHasEq f

/-- The first loop of `setDefaultFlags`: validate each flag (panic modelled
as `Except.error`) and collect its name. -/
def collectFlagNames : List String → Except String (List String)
  | [] => Except.ok []
  | f :: rest =>
    if flagHasDash f then
      if flagHasEq f then
        match collectFlagNames rest with
        | Except.error e => Except.error e
        | Except.ok names => Except.ok (flagName f :: names)
      else Except.error ("BUG: cannot find = in the flag " ++ f)
    else Except.error ("BUG: flag must start with -; got " ++ f)

/-- The second loop of `setDefaultFlags`: append `name=value` for each
default flag whose name is not among the input flag names. -/
def appendDefaults (flags : List String) (flagNames : List String) :
    List (String × String) → Except String (List String)
  | [] => Except.ok flags
  | (name, value) :: rest =>
    if flagHasDash name then
      appendDefaults
        (if flagNames.contains name then flags else flags ++ [name ++ "=" ++ value])
        flagNames rest
    else Except.error ("BUG: default flag name must start with -; got " ++ name)

/-- `setDefaultFlags`: add default flags to `flags` when not already set. -/
def setDefaultFlags (flags : List String) (defaultFlags : List (String × String)) :
    Except String (List String) :=
  match collectFlagNames flags with
  | Except.error e => Except.error e
  | Except.ok names => appendDefaults flags names defaultFlags

/-! ## The query-response parser (`NewLogsQLQueryResponse`) -/

/-- A parsed response line: the JSON object of one log line, as key/value
pairs. -/
abbrev LogLine := List (String × String)

/-- `delete(lv, "_stream_id")` applied to a parsed line. -/
def removeStreamId (line : LogLine) : LogLine :=
  line.filter (fun kv => !(kv.1 == "_stream_id"))

/-- `NewLogsQLQueryResponse`: an empty body parses to zero log lines,
otherwise every line is normalised by dropping its `_stream_id` key. -/
def NewLogsQLQueryResponse (body : List LogLine) : List LogLine :=
  body.map removeStreamId

/-- Modelled from the spec: every line of a `/select/logsql/query` wire
response carries a synthetic `_stream_id` field (the select path is not
under src/). -/
def selectWireLine (streamId : String) (rest : LogLine) : LogLine :=
  ("_stream_id", streamId) :: rest

/-! ## Helper lemmas -/

/-! ## Helper lemmas -/

theorem decodeLogsData_corrupt (payload : LogsPayload) (h : none ∈ payload) :
    decodeLogsData payload = Except.error "corrupt log record" := by
  induction payload with
  | nil => cases h
  | cons a l ih =>
    cases a with
    | none => rfl
    | some x =>
      simp only [List.mem_cons] at h
      rcases h with h | h
      · cases h
      · rw [decodeLogsData, ih h]

theorem strLtB_asymm : ∀ as bs, strLtB as bs = true → strLtB bs as = false
  | [], [] => by simp [strLtB]
  | [], _ :: _ => by simp [strLtB]
  | _ :: _, [] => by simp [strLtB]
  | a :: as, b :: bs => by
    by_cases h1 : a.toNat < b.toNat
    · intro _
      have h2 : ¬ b.toNat < a.toNat := by omega
      simp [strLtB, h1, h2]
    · by_cases h2 : b.toNat < a.toNat
      · intro h
        simp [strLtB, h1, h2] at h
      · intro h
        simp only [strLtB, if_neg h1, if_neg h2] at h
        simp only [strLtB, if_neg h1, if_neg h2]
        exact strLtB_asymm as bs h

theorem strLtB_trans : ∀ as bs cs, strLtB as bs = true → strLtB bs cs = true →
    strLtB as cs = true
  | [], [], _ => by simp [strLtB]
  | [], _ :: _, [] => by simp [strLtB]
  | [], _ :: _, _ :: _ => by simp [strLtB]
  | _ :: _, [], _ => by simp [strLtB]
  | a :: as, b :: bs, [] => by simp [strLtB]
  | a :: as, b :: bs, c :: cs => by
    intro h1 h2
    by_cases hab : a.toNat < b.toNat <;> by_cases hbc : b.toNat < c.toNat
    · have hac : a.toNat < c.toNat := by omega
      simp [strLtB, hac]
    · by_cases hcb : c.toNat < b.toNat
      · simp [strLtB, hab, hbc, hcb] at h2
      · have hac : a.toNat < c.toNat := by omega
        simp [strLtB, hac]
    · by_cases hba : b.toNat < a.toNat
      · simp [strLtB, hab, hba] at h1
      · have hac : a.toNat < c.toNat := by omega
        simp [strLtB, hac]
    · by_cases hba : b.toNat < a.toNat
      · simp [strLtB, hab, hba] at h1
      · by_cases hcb : c.toNat < b.toNat
        · simp [strLtB, hbc, hcb] at h2
        · simp only [strLtB, if_neg hab, if_neg hba] at h1
          simp only [strLtB, if_neg hbc, if_neg hcb] at h2
          have hac : ¬ a.toNat < c.toNat := by omega
          have hca : ¬ c.toNat < a.toNat := by omega
          simp only [strLtB, if_neg hac, if_neg hca]
          exact strLtB_trans as bs cs h1 h2

theorem strLtB_conn : ∀ as bs, strLtB as bs = false → strLtB bs as = false → as = bs
  | [], [] => by simp
  | [], _ :: _ => by simp [strLtB]
  | _ :: _, [] => by simp [strLtB]
  | a :: as, b :: bs => by
    intro h1 h2
    by_cases hab : a.toNat < b.toNat
    · simp [strLtB, hab] at h1
    · by_cases hba : b.toNat < a.toNat
      · simp [strLtB, hba] at h2
      · simp only [strLtB, if_neg hab, if_neg hba] at h1 h2
        have ha : a.toNat = a.val.toNat := rfl
        have hb : b.toNat = b.val.toNat := rfl
        have h3 : a.val.toNat = b.val.toNat := by omega
        have hc : a = b := Char.eq_of_val_eq (UInt32.ext h3)
        rw [hc, strLtB_conn as bs h1 h2]

theorem strLeB_total (a b : String) : strLeB a b = true ∨ strLeB b a = true := by
  unfold strLeB
  cases h : strLtB b.data a.data with
  | false => exact Or.inl rfl
  | true =>
    refine Or.inr ?_
    rw [strLtB_asymm _ _ h]
    rfl

theorem strLeB_trans (a b c : String) (h1 : strLeB a b = true) (h2 : strLeB b c = true) :
    strLeB a c = true := by
  unfold strLeB at h1 h2 ⊢
  simp only [Bool.not_eq_true', Bool.not_eq_eq_eq_not, Bool.not_true] at h1 h2 ⊢
  cases hca : strLtB c.data a.data with
  | false => rfl
  | true =>
    exfalso
    cases hab : strLtB a.data b.data with
    | true =>
      have := strLtB_trans _ _ _ hca hab
      rw [this] at h2
      cases h2
    | false =>
      have heq : a.data = b.data := strLtB_conn _ _ hab h1
      rw [heq] at hca
      rw [hca] at h2
      cases h2

theorem strLeB_or_lt (a b : String) (h : strLeB a b = true) (hne : a ≠ b) :
    strLtB a.data b.data = true := by
  unfold strLeB at h
  simp only [Bool.not_eq_true'] at h
  cases hab : strLtB a.data b.data with
  | true => rfl
  | false =>
    exfalso
    exact hne (congrArg String.mk (strLtB_conn _ _ hab h))

theorem collectFlagNames_ok : ∀ flags : List String,
    (∀ f ∈ flags, flagIsValid f = true) →
    collectFlagNames flags = Except.ok (flags.map flagName)
  | [], _ => rfl
  | f :: rest, h => by
    have hf : flagIsValid f = true := h f (List.mem_cons_self _ _)
    rw [flagIsValid, Bool.and_eq_true] at hf
    rw [collectFlagNames, if_pos hf.1, if_pos hf.2,
      collectFlagNames_ok rest (fun g hg => h g (List.mem_cons_of_mem _ hg))]
    rfl

theorem collectFlagNames_err : ∀ (flags : List String) (f : String), f ∈ flags →
    flagIsValid f = false → ∃ e, collectFlagNames flags = Except.error e
  | [], f, hf, _ => absurd hf (List.not_mem_nil f)
  | g :: rest, f, hf, hinv => by
    by_cases hdash : flagHasDash g = true
    · by_cases heq : flagHasEq g = true
      · rcases List.mem_cons.mp hf with rfl | hmem
        · rw [flagIsValid, hdash, heq] at hinv
          cases hinv
        · obtain ⟨e, he⟩ := collectFlagNames_err rest f hmem hinv
          refine ⟨e, ?_⟩
          rw [collectFlagNames, if_pos hdash, if_pos heq, he]
      · exact ⟨"BUG: cannot find = in the flag " ++ g, by
          rw [collectFlagNames, if_pos hdash, if_neg heq]⟩
    · exact ⟨"BUG: flag must start with -; got " ++ g, by
        rw [collectFlagNames, if_neg hdash]⟩

theorem appendDefaults_ok (names : List String) :
    ∀ (defaults : List (String × String)) (acc : List String),
      (∀ d ∈ defaults, flagHasDash d.1 = true) →
      appendDefaults acc names defaults = Except.ok (acc ++
        (defaults.filter (fun d => !(names.contains d.1))).map
          (fun d => d.1 ++ "=" ++ d.2))
  | [], acc, _ => by simp [appendDefaults]
  | (name, value) :: rest, acc, h => by
    have hd : flagHasDash name = true := h (name, value) (List.mem_cons_self _ _)
    have hrest : ∀ d ∈ rest, flagHasDash d.1 = true :=
      fun d hd2 => h d (List.mem_cons_of_mem _ hd2)
    rw [appendDefaults, if_pos hd]
    by_cases hc : names.contains name = true
    · rw [if_pos hc, appendDefaults_ok names rest acc hrest]
      have hm : name ∈ names := by simpa using hc
      simp [List.filter_cons, hm]
    · rw [if_neg hc, appendDefaults_ok names rest (acc ++ [name ++ "=" ++ value]) hrest]
      have hm : ¬ (name ∈ names) := by simpa using hc
      simp [List.filter_cons, hm, List.append_assoc]

/-! ## C1 -/

/-- C1: the claim as stated is false: with no caller-supplied stream fields,
`useDefaultStreamFields` is `true` (not `false`), and the leading
`streamFieldsLen` fields are then used as the stream identity rather than
dropped. -/
theorem c1_counterexample :
    useDefaultStreamFieldsOf [] = true ∧
    (pushLogs [] (useDefaultStreamFieldsOf []) ⟨0, [⟨"region", "us"⟩], 1⟩).streamFields
      = some [⟨"region", "us"⟩] := by
  constructor
  · rfl
  · rfl

/-- C1 (amended): `useDefaultStreamFields` is false exactly when the caller
DID supply explicit stream fields; when it is false the leading
`streamFieldsLen` fields are dropped from stream-identity computation while
remaining among the stored fields, and when it is true they are used as the
stream identity. -/
theorem c1_amended :
    (∀ cpStreamFields : List String,
      useDefaultStreamFieldsOf cpStreamFields = false ↔ cpStreamFields ≠ []) ∧
    (∀ msgFields row,
      (pushLogs msgFields false row).streamFields = none ∧
      (pushLogs msgFields false row).fields =
        row.fields.take row.streamFieldsLen ++
          renameField (row.fields.drop row.streamFieldsLen) msgFields) ∧
    (∀ msgFields row,
      (pushLogs msgFields true row).streamFields =
        some (row.fields.take row.streamFieldsLen)) := by
  refine ⟨fun l => ?_, fun msgFields row => ⟨rfl, rfl⟩, fun msgFields row => rfl⟩
  cases l <;> simp [useDefaultStreamFieldsOf]

/-- C1 (witness): the amended statement at concrete inputs. -/
theorem c1_amended_witness :
    (useDefaultStreamFieldsOf ["x"] = false ↔ (["x"] : List String) ≠ []) ∧
    (pushLogs [] false ⟨0, [⟨"a", "b"⟩], 1⟩).streamFields = none ∧
    (pushLogs [] true ⟨0, [⟨"a", "b"⟩], 1⟩).streamFields = some [⟨"a", "b"⟩] :=
  ⟨c1_amended.1 ["x"], (c1_amended.2.1 [] ⟨0, [⟨"a", "b"⟩], 1⟩).1,
    c1_amended.2.2 [] ⟨0, [⟨"a", "b"⟩], 1⟩⟩

/-! ## C2 -/

/-- C2: a payload containing a corrupt record (even a trailing one) makes
`pushProtobufRequest` fail with a decode error, and zero rows from the
request are stored. -/
theorem c2_all_or_nothing (payload : LogsPayload) (msgFields : List String)
    (useDefault : Bool) (hcorrupt : none ∈ payload) :
    (∃ e, pushProtobufRequest payload msgFields useDefault = Except.error e) ∧
    storedRows (pushProtobufRequest payload msgFields useDefault) = [] := by
  have hdec : decodeLogsData payload = Except.error "corrupt log record" :=
    decodeLogsData_corrupt payload hcorrupt
  constructor
  · exact ⟨"cannot decode LogsData request: " ++ "corrupt log record", by
      unfold pushProtobufRequest
      rw [hdec]⟩
  · unfold pushProtobufRequest
    rw [hdec]
    rfl

/-- C2 (witness): a valid leading record followed by a corrupt trailing
record yields an error and no stored rows. -/
theorem c2_witness :
    (∃ e, pushProtobufRequest [some ⟨0, [⟨"a", "b"⟩], 0⟩, none] ["m"] true
      = Except.error e) ∧
    storedRows (pushProtobufRequest [some ⟨0, [⟨"a", "b"⟩], 0⟩, none] ["m"] true) = [] :=
  c2_all_or_nothing [some ⟨0, [⟨"a", "b"⟩], 0⟩, none] ["m"] true (by decide)

/-! ## C4 -/

/-- C4: on the `/insert/opentelemetry/v1/logs` path a JSON content type is
rejected with the "use protobuf encoding" error and nothing is ingested;
every non-JSON content type is handed to the protobuf handler, which is the
only other processing on this path. -/
theorem c4_json_rejected (contentType : String) (cp : Except String CommonParams)
    (canWrite : Except String Unit) (payload : LogsPayload) :
    (isJSONContentType contentType = true →
      RequestHandler "/insert/opentelemetry/v1/logs" contentType cp canWrite payload =
        HandlerResult.rejected
          "json encoding isn't supported for opentelemetry format. Use protobuf encoding" ∧
      ingestedRows
        (RequestHandler "/insert/opentelemetry/v1/logs" contentType cp canWrite payload) = []) ∧
    (isJSONContentType contentType = false →
      RequestHandler "/insert/opentelemetry/v1/logs" contentType cp canWrite payload =
        HandlerResult.handled (handleProtobuf cp canWrite payload).1
          (handleProtobuf cp canWrite payload).2) := by
  constructor
  · intro h
    constructor
    · simp [RequestHandler, h]
    · simp [RequestHandler, h, ingestedRows]
  · intro h
    simp [RequestHandler, h]

/-- C4 (witness): `application/json` is rejected with no ingested rows, and a
protobuf content type reaches the protobuf handler. -/
theorem c4_witness :
    (RequestHandler "/insert/opentelemetry/v1/logs" "application/json"
        (Except.ok ⟨[], []⟩) (Except.ok ()) [] =
      HandlerResult.rejected
        "json encoding isn't supported for opentelemetry format. Use protobuf encoding" ∧
      ingestedRows (RequestHandler "/insert/opentelemetry/v1/logs" "application/json"
        (Except.ok ⟨[], []⟩) (Except.ok ()) []) = []) ∧
    (RequestHandler "/insert/opentelemetry/v1/logs" "application/x-protobuf"
        (Except.ok ⟨[], []⟩) (Except.ok ()) [] =
      HandlerResult.handled
        (handleProtobuf (Except.ok ⟨[], []⟩) (Except.ok ()) []).1
        (handleProtobuf (Except.ok ⟨[], []⟩) (Except.ok ()) []).2) :=
  ⟨(c4_json_rejected "application/json" (Except.ok ⟨[], []⟩) (Except.ok ()) []).1 (by decide),
   (c4_json_rejected "application/x-protobuf" (Except.ok ⟨[], []⟩) (Except.ok ()) []).2 (by decide)⟩

/-! ## C5 -/

/-- C5: for a request whose common params parse, `handleProtobuf` checks the
backpressure condition exactly once, as its first observable step (before the
body is decoded and before any row is processed); when the check fails the
whole request is rejected with that error and no row is forwarded. -/
theorem c5_backpressure_once (cp : CommonParams) (canWrite : Except String Unit)
    (payload : LogsPayload) :
    (handleProtobuf (Except.ok cp) canWrite payload).1.count
      IngestEvent.checkBackpressure = 1 ∧
    (handleProtobuf (Except.ok cp) canWrite payload).1.head? =
      some IngestEvent.checkBackpressure ∧
    (∀ e, canWrite = Except.error e →
      handleProtobuf (Except.ok cp) canWrite payload =
        ([IngestEvent.checkBackpressure], some e)) := by
  cases canWrite with
  | error e =>
    refine ⟨rfl, rfl, ?_⟩
    intro e' he
    cases he
    rfl
  | ok u =>
    cases u
    have hz : ∀ rows : List AddRowCall,
        (rows.map IngestEvent.addRow).count IngestEvent.checkBackpressure = 0 := by
      intro rows
      rw [List.count_eq_zero]
      simp
    cases hp : pushProtobufRequest payload cp.msgFields
        (useDefaultStreamFieldsOf cp.streamFields) with
    | error e =>
      refine ⟨?_, ?_, ?_⟩
      · show (handleProtobuf (Except.ok cp) (Except.ok ()) payload).1.count _ = 1
        simp [handleProtobuf, hp]
      · simp [handleProtobuf, hp]
      · intro e' he
        cases he
    | ok rows =>
      refine ⟨?_, ?_, ?_⟩
      · show (handleProtobuf (Except.ok cp) (Except.ok ()) payload).1.count _ = 1
        simp only [handleProtobuf, hp]
        rw [List.count_cons, List.count_cons, hz rows]
        rfl
      · simp [handleProtobuf, hp]
      · intro e' he
        cases he

/-- C5 (witness): the theorem at a concrete request whose backpressure check
fails. -/
theorem c5_witness :
    (handleProtobuf (Except.ok ⟨["x"], ["m"]⟩) (Except.error "read-only mode")
      [some ⟨0, [⟨"a", "b"⟩], 0⟩]).1.count IngestEvent.checkBackpressure = 1 ∧
    handleProtobuf (Except.ok ⟨["x"], ["m"]⟩) (Except.error "read-only mode")
      [some ⟨0, [⟨"a", "b"⟩], 0⟩] =
        ([IngestEvent.checkBackpressure], some "read-only mode") :=
  ⟨(c5_backpressure_once ⟨["x"], ["m"]⟩ (Except.error "read-only mode")
      [some ⟨0, [⟨"a", "b"⟩], 0⟩]).1,
   (c5_backpressure_once ⟨["x"], ["m"]⟩ (Except.error "read-only mode")
      [some ⟨0, [⟨"a", "b"⟩], 0⟩]).2.2 "read-only mode" rfl⟩

/-! ## C6 -/

/-- C6: the `_msg` renaming is applied only to the non-stream portion of the
row (positions `streamFieldsLen` and later); the leading stream fields are
never renamed; and when no field of the non-stream portion matches the
configured message-field names, the row still carries `_msg` with an empty
message. -/
theorem c6_msg_rename (msgFields : List String) (useDefault : Bool) (row : DecodedRow)
    (hlen : row.streamFieldsLen ≤ row.fields.length) :
    (pushLogs msgFields useDefault row).fields.take row.streamFieldsLen =
      row.fields.take row.streamFieldsLen ∧
    (pushLogs msgFields useDefault row).fields.drop row.streamFieldsLen =
      renameField (row.fields.drop row.streamFieldsLen) msgFields ∧
    ((row.fields.drop row.streamFieldsLen).all
        (fun f => !(msgFields.contains f.name)) = true →
      (⟨"_msg", ""⟩ : LogField) ∈ (pushLogs msgFields useDefault row).fields) := by
  have hlen' : (row.fields.take row.streamFieldsLen).length = row.streamFieldsLen := by
    simp [List.length_take, Nat.min_eq_left hlen]
  refine ⟨?_, ?_, ?_⟩
  · show (row.fields.take row.streamFieldsLen ++
        renameField (row.fields.drop row.streamFieldsLen) msgFields).take
        row.streamFieldsLen = row.fields.take row.streamFieldsLen
    rw [List.take_left' hlen']
  · show (row.fields.take row.streamFieldsLen ++
        renameField (row.fields.drop row.streamFieldsLen) msgFields).drop
        row.streamFieldsLen = renameField (row.fields.drop row.streamFieldsLen) msgFields
    rw [List.drop_left' hlen']
  · intro hall
    have hany : (row.fields.drop row.streamFieldsLen).any
        (fun f => msgFields.contains f.name) = false := by
      rw [List.any_eq_false]
      intro f hf
      have := List.all_eq_true.mp hall f hf
      simpa using this
    have hrn : renameField (row.fields.drop row.streamFieldsLen) msgFields =
        row.fields.drop row.streamFieldsLen ++ [⟨"_msg", ""⟩] := by
      rw [renameField, hany]
      simp
    show (⟨"_msg", ""⟩ : LogField) ∈ row.fields.take row.streamFieldsLen ++
        renameField (row.fields.drop row.streamFieldsLen) msgFields
    rw [hrn]
    simp

/-- C6 (witness): a row whose single stream field name collides with the
message-field configuration is not renamed, and a row with no matching
message field gets an empty `_msg`. -/
theorem c6_witness :
    (pushLogs ["a"] true ⟨0, [⟨"a", "b"⟩], 1⟩).fields.take 1 = [⟨"a", "b"⟩] ∧
    (⟨"_msg", ""⟩ : LogField) ∈ (pushLogs ["a"] true ⟨0, [⟨"a", "b"⟩], 1⟩).fields :=
  ⟨(c6_msg_rename ["a"] true ⟨0, [⟨"a", "b"⟩], 1⟩ (by decide)).1,
   (c6_msg_rename ["a"] true ⟨0, [⟨"a", "b"⟩], 1⟩ (by decide)).2.2 (by decide)⟩

/-! ## C3 -/

/-- C3: ingesting the five test records with stream field `x` yields two
distinct streams, five rows, and the facet histogram of field `x` equal to
`[(y, 4), (z, 1)]` in that order. -/
theorem c3_end_to_end :
    countUniqStreams ["x"] testRecords = 2 ∧
    testRecords.length = 5 ∧
    facetsForField "x" testRecords = [("y", 4), ("z", 1)] := by
  refine ⟨by decide, rfl, by decide⟩

/-! ## C7 -/

/-- C7: in every facets response the field entries are sorted strictly
ascending by field name, and within each field the value entries are sorted
by descending hits with ties broken lexicographically ascending by value. -/
theorem c7_facets_sorted (rows : List (List LogField)) :
    List.Pairwise (fun a b : String × List (String × Nat) =>
      strLtB a.1.data b.1.data = true) (facetsResponse rows) ∧
    ∀ p ∈ facetsResponse rows, List.Pairwise facetValueOrder p.2 := by
  haveI : IsTotal String nameOrder := ⟨strLeB_total⟩
  haveI : IsTrans String nameOrder := ⟨strLeB_trans⟩
  haveI : IsTotal (String × Nat) hitsOrder := ⟨by
    intro a b
    rcases Nat.lt_trichotomy a.2 b.2 with h | h | h
    · exact Or.inr (Or.inl h)
    · rcases strLeB_total a.1 b.1 with hs | hs
      · exact Or.inl (Or.inr ⟨h, hs⟩)
      · exact Or.inr (Or.inr ⟨h.symm, hs⟩)
    · exact Or.inl (Or.inl h)⟩
  haveI : IsTrans (String × Nat) hitsOrder := ⟨by
    intro a b c hab hbc
    rcases hab with h1 | ⟨h1, h1s⟩ <;> rcases hbc with h2 | ⟨h2, h2s⟩
    · exact Or.inl (by omega)
    · exact Or.inl (by omega)
    · exact Or.inl (by omega)
    · exact Or.inr ⟨by omega, strLeB_trans _ _ _ h1s h2s⟩⟩
  constructor
  · rw [facetsResponse, List.pairwise_map]
    have hsorted : List.Sorted nameOrder
        (List.insertionSort nameOrder (fieldNamesOf rows)) :=
      List.sorted_insertionSort nameOrder (fieldNamesOf rows)
    have hnodup : (List.insertionSort nameOrder (fieldNamesOf rows)).Nodup :=
      ((List.perm_insertionSort nameOrder (fieldNamesOf rows)).nodup_iff).mpr
        (List.nodup_dedup _)
    exact hsorted.imp₂ (fun a b hle hne => strLeB_or_lt a b hle hne) hnodup
  · intro p hp
    rw [facetsResponse, List.mem_map] at hp
    obtain ⟨n, hn, rfl⟩ := hp
    rw [facetsForField]
    have hsorted : List.Sorted hitsOrder
        (List.insertionSort hitsOrder ((fieldValuesOf n rows).dedup.map
          (fun v => (v, (fieldValuesOf n rows).count v)))) :=
      List.sorted_insertionSort _ _
    have hkeys : List.Pairwise (fun a b : String × Nat => a.1 ≠ b.1)
        ((fieldValuesOf n rows).dedup.map
          (fun v => (v, (fieldValuesOf n rows).count v))) := by
      rw [List.pairwise_map]
      exact (List.nodup_dedup (fieldValuesOf n rows)).imp (fun hne => hne)
    have hkeys2 : List.Pairwise (fun a b : String × Nat => a.1 ≠ b.1)
        (List.insertionSort hitsOrder ((fieldValuesOf n rows).dedup.map
          (fun v => (v, (fieldValuesOf n rows).count v)))) :=
      ((List.perm_insertionSort hitsOrder _).pairwise_iff (fun h => h.symm)).mpr hkeys
    refine hsorted.imp₂ (fun a b hab hne => ?_) hkeys2
    rcases hab with h | ⟨heq, hle⟩
    · exact Or.inl h
    · exact Or.inr ⟨heq, strLeB_or_lt _ _ hle hne⟩

/-- C7 (witness): the sortedness facts at a concrete pair of rows. -/
theorem c7_witness :
    List.Pairwise (fun a b : String × List (String × Nat) =>
      strLtB a.1.data b.1.data = true)
      (facetsResponse [[⟨"b", "1"⟩], [⟨"a", "2"⟩]]) ∧
    List.Pairwise facetValueOrder
      ("a", facetsForField "a" [[⟨"b", "1"⟩], [⟨"a", "2"⟩]]).2 :=
  ⟨(c7_facets_sorted [[⟨"b", "1"⟩], [⟨"a", "2"⟩]]).1,
   (c7_facets_sorted [[⟨"b", "1"⟩], [⟨"a", "2"⟩]]).2
     ("a", facetsForField "a" [[⟨"b", "1"⟩], [⟨"a", "2"⟩]]) (by decide)⟩

/-! ## C8 -/

/-- C8: starting a VictoriaLogs cluster creates exactly three storage nodes;
the insert node gets `-select.disable=true` and the select node gets
`-insert.disable=true`; both are pointed at the full comma-joined address
list of all three storage nodes. -/
theorem c8_cluster_topology (addrOf : Nat → String) :
    (MustStartVlcluster addrOf).storageAddrs.length = 3 ∧
    (MustStartVlcluster addrOf).insertFlags =
      ["-storageNode=" ++ String.intercalate "," [addrOf 0, addrOf 1, addrOf 2],
       "-select.disable=true"] ∧
    (MustStartVlcluster addrOf).selectFlags =
      ["-storageNode=" ++ String.intercalate "," [addrOf 0, addrOf 1, addrOf 2],
       "-insert.disable=true"] :=
  ⟨rfl, rfl, rfl⟩

/-! ## C9 -/

/-- C9: the wire line carries `_stream_id`; the parsed representation drops
exactly the `_stream_id` key from every line, preserving all other keys; an
empty body parses to zero log lines. -/
theorem c9_response_parsing :
    NewLogsQLQueryResponse [] = [] ∧
    (∀ streamId rest, ("_stream_id", streamId) ∈ selectWireLine streamId rest) ∧
    (∀ line : LogLine, ∀ v : String, ("_stream_id", v) ∉ removeStreamId line) ∧
    (∀ line : LogLine, ∀ kv : String × String, kv.1 ≠ "_stream_id" →
      (kv ∈ removeStreamId line ↔ kv ∈ line)) ∧
    (∀ body : List LogLine, NewLogsQLQueryResponse body = body.map removeStreamId) := by
  refine ⟨rfl, fun streamId rest => List.mem_cons_self _ _, ?_, ?_, fun body => rfl⟩
  · intro line v h
    rw [removeStreamId, List.mem_filter] at h
    simp at h
  · intro line kv h
    rw [removeStreamId, List.mem_filter]
    simp [h]

/-- C9 (witness): the parsing facts at a concrete two-key line. -/
theorem c9_witness :
    (("x", "y") ∈ removeStreamId [("_stream_id", "abc"), ("x", "y")] ↔
      ("x", "y") ∈ ([("_stream_id", "abc"), ("x", "y")] : LogLine)) ∧
    ("_stream_id", "abc") ∉ removeStreamId [("_stream_id", "abc"), ("x", "y")] :=
  ⟨c9_response_parsing.2.2.2.1 [("_stream_id", "abc"), ("x", "y")] ("x", "y") (by decide),
   c9_response_parsing.2.2.1 [("_stream_id", "abc"), ("x", "y")] "abc"⟩

/-- C10: for a flags list whose entries all start with `-` and contain `=`
(and defaults whose names are flag-shaped), `setDefaultFlags` returns the
original entries unchanged and in order, followed by one appended
`name=value` entry per default flag whose name is not among the input flag
names; any input entry lacking the `-` prefix or the `=` separator makes it
panic instead. -/
theorem c10_setDefaultFlags :
    (∀ (flags : List String) (defaults : List (String × String)),
      (∀ f ∈ flags, flagIsValid f = true) →
      (∀ d ∈ defaults, flagHasDash d.1 = true) →
      setDefaultFlags flags defaults = Except.ok (flags ++
        (defaults.filter (fun d => !((flags.map flagName).contains d.1))).map
          (fun d => d.1 ++ "=" ++ d.2))) ∧
    (∀ (flags : List String) (defaults : List (String × String)) (f : String),
      f ∈ flags → flagIsValid f = false →
      ∃ e, setDefaultFlags flags defaults = Except.error e) := by
  constructor
  · intro flags defaults hflags hdefaults
    rw [setDefaultFlags, collectFlagNames_ok flags hflags]
    exact appendDefaults_ok (flags.map flagName) defaults flags hdefaults
  · intro flags defaults f hmem hinv
    obtain ⟨e, he⟩ := collectFlagNames_err flags f hmem hinv
    exact ⟨e, by rw [setDefaultFlags, he]⟩

/-- C10 (witness): a valid flag list gets the missing default appended and
keeps the already-present one; a dash-less entry panics. -/
theorem c10_witness :
    setDefaultFlags ["-a=1"] [("-b", "2"), ("-a", "9")] = Except.ok ["-a=1", "-b=2"] ∧
    ∃ e, setDefaultFlags ["x"] [("-b", "2")] = Except.error e := by
  constructor
  · rw [c10_setDefaultFlags.1 ["-a=1"] [("-b", "2"), ("-a", "9")] (by decide) (by decide)]
    rfl
  · exact c10_setDefaultFlags.2 ["x"] [("-b", "2")] "x" (by decide) (by decide)
